import Mathlib

/-!
Verification model of the rocket-jwt-roles-demo web application (src/main.rs).

The application authenticates users against Argon2 password hashes stored in a
user table, mints a signed JWT carrying the username and role list, stores it in
a cookie, and gates `/admin/<path>` behind the `admin` role.

External collaborators are modelled explicitly:
  * the JWT library (`jsonwebtoken` v2 API: `encode(Header::default(), &payload, KEY)`,
    `decode::<UserRolesToken>(&token, KEY, Algorithm::HS256)`) is modelled as a
    concrete injective serialization of the claims plus a keyed digest; that
    generation of the library verifies the signature and deserializes the claims
    and does not itself reject on `exp`;
  * the Argon2 verifier (`argon2rs::verifier::Encoded`) is modelled by a tagged
    encoding: `from_u8` succeeds exactly on well-formed encodings, `verify`
    compares the embedded secret with the candidate;
  * the user store (Diesel/Postgres) is a lookup function; `none` models any
    `Err(_)` of the query (missing row or connectivity failure);
  * a Rust panic (`unwrap` / `expect` on an error value) is modelled as the
    `Except.error` branch of the handler's result, carrying the panic message.
-/

namespace RocketJwt

/-- ONE_WEEK from src/main.rs: `static ONE_WEEK: i64 = 60 * 60 * 24 * 7;`. -/
def ONE_WEEK : Int := 60 * 60 * 24 * 7

/-- Model of `static KEY: &[u8; 16] = include_bytes!("../secret.key")`: sixteen
secret bytes loaded at process start. The concrete value is secret material and
irrelevant to every property proved below (all sites use the same process key). -/
def KEY : List Char := "0123456789abcdef".data

/-- The JWT claims struct of src/main.rs: issued-at, expiry, username, roles. -/
structure UserRolesToken where
  iat : Int
  exp : Int
  user : String
  roles : List String
deriving Repr, DecidableEq

/-- `is_expired` from src/main.rs; the reading of `time::get_time().sec` is
passed explicitly as `now`. The source computes `now >= self.exp`. -/
def UserRolesToken.is_expired (t : UserRolesToken) (now : Int) : Bool :=
  now ≥ t.exp

/-- `is_claimed_user` from src/main.rs. -/
def UserRolesToken.is_claimed_user (t : UserRolesToken) (claimed_user : String) : Bool :=
  t.user == claimed_user

/-- `has_role` from src/main.rs: `self.roles.contains(&role.to_string())`. -/
def UserRolesToken.has_role (t : UserRolesToken) (role : String) : Bool :=
  t.roles.contains role

/-! ### Model of the JWT codec (external `jsonwebtoken` library)

The wire format of the model: a fixed header segment, the length-prefixed
serialized claims, then the keyed digest of the serialized claims. Integers are
decimal, strings and lists are length-prefixed, so the serialization is
injective and a total parser recovers the claims exactly. -/

/-- Decimal digit character. -/
def digitChar (d : Nat) : Char := Char.ofNat (48 + d)

/-- Fuel-driven digit accumulator (structurally recursive, so that concrete
tokens evaluate inside the kernel). -/
def natReprGo : Nat → Nat → List Char → List Char
  | 0, _, acc => acc
  | fuel + 1, n, acc =>
    if n < 10 then digitChar n :: acc
    else natReprGo fuel (n / 10) (digitChar (n % 10) :: acc)

/-- Decimal representation of a natural number, most significant digit first. -/
def natRepr (n : Nat) : List Char := natReprGo (n + 1) n []

/-- Decimal representation of an integer (minus sign for negatives). -/
def intRepr (i : Int) : List Char :=
  if i < 0 then '-' :: natRepr i.natAbs else natRepr i.natAbs

/-- Value of a digit string, most significant digit first. -/
def digitsToNat (l : List Char) : Nat :=
  l.foldl (fun a c => a * 10 + (c.toNat - 48)) 0

/-- Parse a nonempty run of leading digits. -/
def parseNat (l : List Char) : Option (Nat × List Char) :=
  let ds := l.takeWhile Char.isDigit
  if ds.isEmpty then none
  else some (digitsToNat ds, l.dropWhile Char.isDigit)

/-- Parse an optional minus sign followed by digits. -/
def parseInt (l : List Char) : Option (Int × List Char) :=
  match l with
  | [] => none
  | c :: rest =>
    if c = '-' then (parseNat rest).map fun p => (-(p.1 : Int), p.2)
    else (parseNat (c :: rest)).map fun p => ((p.1 : Int), p.2)

/-- Consume one expected character. -/
def expectChar (c : Char) : List Char → Option (List Char)
  | [] => none
  | x :: rest => if x = c then some rest else none

/-- Length-prefixed string segment. -/
def serStr (s : List Char) : List Char :=
  natRepr s.length ++ '.' :: s

/-- Parse a length-prefixed string segment. -/
def parseStr (l : List Char) : Option (List Char × List Char) := do
  let (n, l) ← parseNat l
  let l ← expectChar '.' l
  if n ≤ l.length then some (l.take n, l.drop n) else none

/-- Concatenation of length-prefixed segments. -/
def serListBody : List (List Char) → List Char
  | [] => []
  | s :: ss => serStr s ++ serListBody ss

/-- Count-prefixed list of length-prefixed string segments. -/
def serList (ss : List (List Char)) : List Char :=
  natRepr ss.length ++ '.' :: serListBody ss

/-- Parse `n` length-prefixed string segments. -/
def parseListAux : Nat → List Char → Option (List (List Char) × List Char)
  | 0, l => some ([], l)
  | n + 1, l => do
    let (s, l) ← parseStr l
    let (ss, l) ← parseListAux n l
    some (s :: ss, l)

/-- Serialized claims: iat, exp, user, roles. -/
def payloadSer (t : UserRolesToken) : List Char :=
  intRepr t.iat ++ '.' :: (intRepr t.exp ++ '.' :: (serStr t.user.data
    ++ serList (t.roles.map String.data)))

/-- Parse serialized claims, requiring the whole input to be consumed. -/
def parsePayload (l : List Char) : Option UserRolesToken := do
  let (iat, l) ← parseInt l
  let l ← expectChar '.' l
  let (ex, l) ← parseInt l
  let l ← expectChar '.' l
  let (u, l) ← parseStr l
  let (n, l) ← parseNat l
  let l ← expectChar '.' l
  let (rs, l) ← parseListAux n l
  match l with
  | [] => some ⟨iat, ex, ⟨u⟩, rs.map fun r => ⟨r⟩⟩
  | _ => none

/-- Model of the keyed digest (HMAC-SHA256 class) used by `Algorithm::HS256`:
a deterministic function of key and message. Collision resistance is not
modelled; no property below depends on it. -/
def hmacModel (key msg : List Char) : Nat :=
  (key ++ msg).foldl (fun a c => (a * 131 + c.toNat + 1) % 1000003) 7

/-- Model of the serialized JWT header produced by `Header::default()`
(alg HS256, typ JWT). -/
def headerSer : List Char := "JWT:HS256;".data

/-- Decode errors of the JWT library, per the spec taxonomy. -/
inductive TokenError where
  | Malformed
  | BadSignature
deriving Repr, DecidableEq

/-- Model of `jwt::encode(Header::default(), &payload, key)`. -/
def jwtEncodeChars (key : List Char) (t : UserRolesToken) : List Char :=
  headerSer ++ serStr (payloadSer t) ++ natRepr (hmacModel key (payloadSer t))

/-- Model of `jwt::decode::<UserRolesToken>(&token, key, Algorithm::HS256)`:
checks the header, verifies the signature against the recomputed digest, and
deserializes the claims. It does NOT reject on `exp`: in the library generation
the source uses, expiry is the caller's concern (`is_expired`). -/
def jwtDecodeChars (key : List Char) (l : List Char) : Except TokenError UserRolesToken :=
  if headerSer.isPrefixOf l then
    match parseStr (l.drop headerSer.length) with
    | none => .error .Malformed
    | some (payload, sig) =>
      if sig = natRepr (hmacModel key payload) then
        match parsePayload payload with
        | none => .error .Malformed
        | some t => .ok t
      else .error .BadSignature
  else .error .Malformed

/-- String-level JWT encoding. -/
def jwtEncode (key : List Char) (t : UserRolesToken) : String :=
  ⟨jwtEncodeChars key t⟩

/-- String-level JWT decoding. -/
def jwtDecode (key : List Char) (s : String) : Except TokenError UserRolesToken :=
  jwtDecodeChars key s.data

/-- The claims struct built inside `jwt_generate` (src/main.rs lines 94-100):
`iat = now`, `exp = now + ONE_WEEK`, user and roles verbatim. The reading of
`time::get_time().sec` is passed explicitly as `now`. -/
def jwt_payload (now : Int) (user : String) (roles : List String) : UserRolesToken :=
  { iat := now, exp := now + ONE_WEEK, user := user, roles := roles }

/-- `jwt_generate` from src/main.rs: builds the claims and signs them with the
process key. -/
def jwt_generate (now : Int) (user : String) (roles : List String) : String :=
  jwtEncode KEY (jwt_payload now user roles)

/-! ### Model of the user store, the Argon2 verifier, and the handlers -/

/-- Modelled from the spec: the user record of the external store (`models.rs`
and `schema.rs` are not in src/). Per spec section 3: username (unique string),
password hash (opaque encoded string), role set (sequence of role names). The
field names follow the uses in src/main.rs (`user.pw_hash`, `user.username`,
`user.user_roles`). -/
structure User where
  username : String
  pw_hash : String
  user_roles : List String
deriving Repr, DecidableEq

/-- Model of the external user store: lookup by username. `none` models any
`Err(_)` of `users.filter(username.eq(..)).first::<User>(&connection)` —
a missing row as well as a connectivity failure. -/
def Db : Type := String → Option User

/-- A store in which every lookup fails. -/
def dbEmpty : Db := fun _ => none

/-- Tag of a well-formed encoded Argon2 hash in the model. -/
def argonTag : List Char := "$argon2i$".data

/-- Model of `argon2rs::verifier::Encoded::from_u8`: parses a previously
produced encoding (algorithm tag, parameters, salt, digest). In the model a
well-formed encoding is the tag followed by the embedded secret; anything else
is a malformed encoding and fails to parse. -/
def encodedFromU8 (h : String) : Option String :=
  if argonTag.isPrefixOf h.data then some ⟨h.data.drop argonTag.length⟩ else none

/-- Model of `Encoded::verify`: the candidate password matches the secret
embedded in the parsed encoding. One-wayness of the hash is not modelled. -/
def encodedVerify (stored candidate : String) : Bool :=
  stored == candidate

/-- Model of a rendered `rocket_contrib::Template`: template name plus the
context mapping. -/
structure Template where
  name : String
  context : List (String × String)
deriving Repr, DecidableEq

/-- Model of Rust's `format!("{:?}", v)` for a `Vec<String>` (escaping of
special characters inside the strings is not modelled). -/
def rustDebugStrVec (l : List String) : String :=
  "[" ++ String.intercalate ", " (l.map fun s => "\"" ++ s ++ "\"") ++ "]"

/-- `admin_index` from src/main.rs. -/
def admin_index : Template :=
  ⟨"admin/index", [("message", "Congrats, you're an admin.")]⟩

/-- `display_user` from src/main.rs. The store lookup uses
`.expect(&format!("Failed to retrieve {}", user))`: on a failed lookup the
request panics, modelled as `Except.error` with the panic message. -/
def display_user (db : Db) (user : String) : Except String Template :=
  match db user with
  | none => .error ("Failed to retrieve " ++ user)
  | some u =>
    .ok ⟨"admin/console",
      [("user", String.intercalate ", " [u.username, rustDebugStrVec u.user_roles])]⟩

/-- `admin_handler` from src/main.rs. `jwtCookie` is `cookies.find("jwt")`.
`.ok none` models the `None` return (Rocket turns it into 404 not-found);
`.error` models a panic of the request. The handler unwraps the decode result
(`decode::<UserRolesToken>(&token, KEY, Algorithm::HS256).unwrap()`), so a
token that fails to decode panics. -/
def admin_handler (db : Db) (jwtCookie : Option String) (path : String) :
    Except String (Option Template) :=
  match jwtCookie with
  | none => .ok none
  | some token =>
    match jwtDecode KEY token with
    | .error _ => .error "called `Result::unwrap()` on an `Err` value"
    | .ok claims =>
      if !(claims.has_role "admin") then .ok none
      else
        match path with
        | "index" => .ok (some admin_index)
        | "user" => (display_user db claims.user).map some
        | _ => .ok none

/-- Outcome of the `index` handler: a rendered page or a redirect. -/
inductive IndexResponse where
  | page (t : Template)
  | redirect (target : String)
deriving Repr, DecidableEq

/-- `index` from src/main.rs: no cookie redirects to /login; otherwise the
token is decoded with `.unwrap()` (panic on failure) and the page is rendered
with the user's name, plus an admin flag when the token has the admin role. -/
def index (jwtCookie : Option String) : Except String IndexResponse :=
  match jwtCookie with
  | none => .ok (.redirect "/login")
  | some token =>
    match jwtDecode KEY token with
    | .error _ => .error "called `Result::unwrap()` on an `Err` value"
    | .ok claims =>
      .ok (.page ⟨"index",
        [("name", claims.user)] ++
          (if claims.has_role "admin" then [("admin", "true")] else [])⟩)

/-- `login` from src/main.rs. Returns the redirect target together with the
cookie that was added (`none` when no cookie is set); `.error` models a panic.
The reading of `time::get_time().sec` inside `jwt_generate` is passed
explicitly as `now`. A failed store lookup redirects back to /login; a stored
hash that `Encoded::from_u8` cannot parse panics
(`.expect("Failed to read password hash")`); a failed verification redirects
back to /login; success sets the jwt cookie and redirects to /. -/
def login (db : Db) (username password : String) (now : Int) :
    Except String (String × Option String) :=
  match db username with
  | none => .ok ("/login", none)
  | some user =>
    match encodedFromU8 user.pw_hash with
    | none => .error "Failed to read password hash"
    | some db_hash =>
      if !(encodedVerify db_hash password) then .ok ("/login", none)
      else .ok ("/", some (jwt_generate now user.username user.user_roles))

/-- A stored user whose password hash is a well-formed encoding of "correct". -/
def userAlice : User := ⟨"alice", "$argon2i$correct", ["admin"]⟩

/-- A stored user whose password hash is a malformed encoding. -/
def userEve : User := ⟨"eve", "garbage", []⟩

/-- A sample store holding userEve and userAlice. -/
def dbSample : Db := fun u =>
  if u = "eve" then some userEve else if u = "alice" then some userAlice else none

/-! ### Lemmas about the serialization and the parser -/

theorem digitChar_toNat {d : Nat} (h : d < 10) : (digitChar d).toNat = 48 + d := by
  interval_cases d <;> decide

theorem digitChar_isDigit {d : Nat} (h : d < 10) : (digitChar d).isDigit = true := by
  interval_cases d <;> decide

theorem natReprGo_append (n : Nat) : ∀ fuel acc, n < fuel →
    natReprGo fuel n acc = natRepr n ++ acc := by
  induction n using Nat.strong_induction_on with
  | _ n ih =>
    intro fuel acc hf
    match fuel with
    | fuel + 1 =>
      by_cases h : n < 10
      · simp [natReprGo, natRepr, h]
      · have hdiv : n / 10 < n := by omega
        rw [show natReprGo (fuel + 1) n acc
              = natReprGo fuel (n / 10) (digitChar (n % 10) :: acc) from by
            simp [natReprGo, h],
          ih (n / 10) hdiv fuel _ (by omega),
          show natRepr n = natReprGo n (n / 10) [digitChar (n % 10)] from by
            simp [natRepr, natReprGo, h],
          ih (n / 10) hdiv n _ (by omega)]
        simp

theorem natRepr_eq (n : Nat) :
    natRepr n = if n < 10 then [digitChar n]
      else natRepr (n / 10) ++ [digitChar (n % 10)] := by
  by_cases h : n < 10
  · simp [natRepr, natReprGo, h]
  · rw [if_neg h,
      show natRepr n = natReprGo n (n / 10) [digitChar (n % 10)] from by
        simp [natRepr, natReprGo, h],
      natReprGo_append (n / 10) n [digitChar (n % 10)] (by omega)]

theorem natRepr_ne_nil (n : Nat) : natRepr n ≠ [] := by
  rw [natRepr_eq]
  split <;> simp

theorem natRepr_digits (n : Nat) : ∀ c ∈ natRepr n, c.isDigit = true := by
  induction n using Nat.strong_induction_on with
  | _ n ih =>
    rw [natRepr_eq]
    split
    · next h =>
      intro c hc
      simp only [List.mem_singleton] at hc
      subst hc
      exact digitChar_isDigit h
    · next h =>
      intro c hc
      rcases List.mem_append.mp hc with hc | hc
      · exact ih (n / 10) (by omega) c hc
      · simp only [List.mem_singleton] at hc
        subst hc
        exact digitChar_isDigit (Nat.mod_lt _ (by omega))

theorem natRepr_foldl (n : Nat) : ∀ a : Nat,
    List.foldl (fun a c => a * 10 + (c.toNat - 48)) a (natRepr n)
      = a * 10 ^ (natRepr n).length + n := by
  induction n using Nat.strong_induction_on with
  | _ n ih =>
    intro a
    rw [natRepr_eq]
    split
    · next h =>
      simp [digitChar_toNat h]
    · next h =>
      rw [List.foldl_append, ih (n / 10) (by omega)]
      simp only [List.foldl_cons, List.foldl_nil, List.length_append,
        List.length_singleton, digitChar_toNat (Nat.mod_lt n (by omega))]
      have hmod : n / 10 * 10 + n % 10 = n := by omega
      have hd : 48 + n % 10 - 48 = n % 10 := by omega
      rw [hd]
      calc (a * 10 ^ (natRepr (n / 10)).length + n / 10) * 10 + n % 10
          = a * (10 ^ (natRepr (n / 10)).length * 10) + (n / 10 * 10 + n % 10) := by ring
        _ = a * 10 ^ ((natRepr (n / 10)).length + 1) + n := by rw [hmod, pow_succ]

theorem digitsToNat_natRepr (n : Nat) : digitsToNat (natRepr n) = n := by
  have h := natRepr_foldl n 0
  simpa [digitsToNat] using h

theorem takeWhile_append_cons {p : Char → Bool} {l₁ : List Char} (c : Char) (l₂ : List Char)
    (h1 : ∀ x ∈ l₁, p x = true) (h2 : p c = false) :
    (l₁ ++ c :: l₂).takeWhile p = l₁ := by
  induction l₁ with
  | nil => simp [List.takeWhile_cons, h2]
  | cons a as ih =>
    have ha : p a = true := h1 a (List.mem_cons_self _ _)
    simp [List.takeWhile_cons, ha, ih fun x hx => h1 x (List.mem_cons_of_mem _ hx)]

theorem dropWhile_append_cons {p : Char → Bool} {l₁ : List Char} (c : Char) (l₂ : List Char)
    (h1 : ∀ x ∈ l₁, p x = true) (h2 : p c = false) :
    (l₁ ++ c :: l₂).dropWhile p = c :: l₂ := by
  induction l₁ with
  | nil => simp [List.dropWhile_cons, h2]
  | cons a as ih =>
    have ha : p a = true := h1 a (List.mem_cons_self _ _)
    simp [List.dropWhile_cons, ha, ih fun x hx => h1 x (List.mem_cons_of_mem _ hx)]

theorem parseNat_ser (n : Nat) (c : Char) (rest : List Char) (hc : c.isDigit = false) :
    parseNat (natRepr n ++ c :: rest) = some (n, c :: rest) := by
  unfold parseNat
  rw [takeWhile_append_cons c rest (natRepr_digits n) hc,
    dropWhile_append_cons c rest (natRepr_digits n) hc]
  simp [List.isEmpty_iff, natRepr_ne_nil n, digitsToNat_natRepr]

theorem natRepr_head_digit (n : Nat) : ∃ d t, natRepr n = d :: t ∧ d.isDigit = true := by
  rcases hne : natRepr n with _ | ⟨d, t⟩
  · exact absurd hne (natRepr_ne_nil n)
  · refine ⟨d, t, rfl, natRepr_digits n d ?_⟩
    rw [hne]
    exact List.mem_cons_self _ _

theorem parseInt_ser (i : Int) (c : Char) (rest : List Char) (hc : c.isDigit = false) :
    parseInt (intRepr i ++ c :: rest) = some (i, c :: rest) := by
  by_cases hi : i < 0
  · rw [intRepr, if_pos hi]
    show parseInt ('-' :: (natRepr i.natAbs ++ c :: rest)) = _
    rw [parseInt, if_pos rfl, parseNat_ser i.natAbs c rest hc]
    simp only [Option.map_some']
    have : -(i.natAbs : Int) = i := by omega
    rw [this]
  · rw [intRepr, if_neg hi]
    obtain ⟨d, t, hd, hdig⟩ := natRepr_head_digit i.natAbs
    rw [hd]
    show parseInt (d :: (t ++ c :: rest)) = _
    have hdm : ¬ d = '-' := by
      intro h
      rw [h] at hdig
      exact absurd hdig (by decide)
    rw [parseInt, if_neg hdm, show d :: (t ++ c :: rest) = (d :: t) ++ c :: rest from rfl,
      ← hd, parseNat_ser i.natAbs c rest hc]
    simp only [Option.map_some']
    have : (i.natAbs : Int) = i := by omega
    rw [this]

theorem take_app {α : Type} (l₁ l₂ : List α) : (l₁ ++ l₂).take l₁.length = l₁ := by
  induction l₁ with
  | nil => simp
  | cons a as ih => simp [ih]

theorem drop_app {α : Type} (l₁ l₂ : List α) : (l₁ ++ l₂).drop l₁.length = l₂ := by
  induction l₁ with
  | nil => simp
  | cons a as ih => simp [ih]

theorem expectChar_dot (rest : List Char) : expectChar '.' ('.' :: rest) = some rest := by
  simp [expectChar]

theorem parseStr_ser (s rest : List Char) : parseStr (serStr s ++ rest) = some (s, rest) := by
  unfold serStr parseStr
  rw [List.append_assoc, show ('.' :: s) ++ rest = '.' :: (s ++ rest) from rfl,
    parseNat_ser s.length '.' (s ++ rest) (by decide)]
  simp only [Option.bind_eq_bind, Option.some_bind, expectChar_dot]
  rw [if_pos (by simp)]
  rw [take_app, drop_app]

theorem parseListAux_ser (ss : List (List Char)) (rest : List Char) :
    parseListAux ss.length (serListBody ss ++ rest) = some (ss, rest) := by
  induction ss generalizing rest with
  | nil => simp [serListBody, parseListAux]
  | cons s ss ih =>
    show parseListAux (ss.length + 1) ((serStr s ++ serListBody ss) ++ rest) = _
    rw [List.append_assoc]
    simp [parseListAux, parseStr_ser, ih]

theorem string_mk_data (s : String) : (⟨s.data⟩ : String) = s := rfl

theorem parsePayload_ser (t : UserRolesToken) : parsePayload (payloadSer t) = some t := by
  obtain ⟨iat, ex, u, rs⟩ := t
  show parsePayload (intRepr iat ++ '.' ::
    (intRepr ex ++ '.' :: (serStr u.data ++ serList (rs.map String.data)))) = _
  unfold parsePayload serList
  rw [parseInt_ser iat '.' _ (by decide)]
  simp only [Option.bind_eq_bind, Option.some_bind, expectChar_dot]
  rw [parseInt_ser ex '.' _ (by decide)]
  simp only [Option.some_bind, expectChar_dot]
  rw [show serStr u.data ++ (natRepr (rs.map String.data).length ++
        '.' :: serListBody (rs.map String.data))
      = serStr u.data ++ (natRepr (rs.map String.data).length ++
        '.' :: serListBody (rs.map String.data)) from rfl,
    parseStr_ser u.data _]
  simp only [Option.some_bind]
  rw [parseNat_ser (rs.map String.data).length '.' _ (by decide)]
  simp only [Option.some_bind, expectChar_dot]
  rw [show serListBody (rs.map String.data)
      = serListBody (rs.map String.data) ++ [] from (List.append_nil _).symm,
    parseListAux_ser]
  simp only [Option.some_bind, List.map_map]
  rw [show ((fun r => (⟨r⟩ : String)) ∘ String.data) = id from funext fun s => rfl]
  simp [string_mk_data]

theorem isPrefixOf_append_self (l₁ l₂ : List Char) : l₁.isPrefixOf (l₁ ++ l₂) = true := by
  induction l₁ with
  | nil => simp [List.isPrefixOf]
  | cons a as ih => simp [List.isPrefixOf, ih]

theorem jwtDecodeChars_encodeChars (key : List Char) (t : UserRolesToken) :
    jwtDecodeChars key (jwtEncodeChars key t) = .ok t := by
  unfold jwtEncodeChars jwtDecodeChars
  rw [List.append_assoc, if_pos (isPrefixOf_append_self headerSer _), drop_app,
    parseStr_ser (payloadSer t) (natRepr (hmacModel key (payloadSer t)))]
  simp [parsePayload_ser]

theorem jwtDecode_encode (key : List Char) (t : UserRolesToken) :
    jwtDecode key (jwtEncode key t) = .ok t :=
  jwtDecodeChars_encodeChars key t

/-! ### The claims -/

/-- C1: the claim states that token decode and validation in the admin and
index handlers return a result rather than panicking, for every presented
credential string. The code contradicts this (and its own comment that one
should match on errors instead of unwrapping): presenting the undecodable
token string "garbage" makes both handlers unwrap a decode error, i.e. the
request panics. -/
theorem c1_handlers_panic_on_malformed_token :
    admin_handler dbEmpty (some "garbage") "index"
        = .error "called `Result::unwrap()` on an `Err` value"
      ∧ index (some "garbage")
        = .error "called `Result::unwrap()` on an `Err` value" :=
  ⟨rfl, rfl⟩

/-- C2 counterexample: a token minted at time 0 carries expiry 604800 and is
expired at time 604800, yet the admin handler serves the admin index page for
it — authorization does not yield Unauthenticated on an expired token, because
the handler never invokes is_expired. -/
theorem c2_counterexample :
    (jwt_payload 0 "alice" ["admin"]).is_expired 604800 = true
      ∧ admin_handler dbEmpty (some (jwt_generate 0 "alice" ["admin"])) "index"
          = .ok (some admin_index) := by
  refine ⟨by decide, ?_⟩
  show admin_handler dbEmpty (some (jwtEncode KEY (jwt_payload 0 "alice" ["admin"]))) "index"
    = _
  simp [admin_handler, jwtDecode_encode, UserRolesToken.has_role, jwt_payload]

/-- C2 amended: the admin handler never consults is_expired (it is dead code in
this demo); every correctly signed token holding the admin role is served the
admin index page, even when its expiry time has passed at the current time. -/
theorem c2_expired_admin_token_still_served (db : Db) (t : UserRolesToken) (now : Int)
    (hrole : t.has_role "admin" = true) (hexp : t.is_expired now = true) :
    admin_handler db (some (jwtEncode KEY t)) "index" = .ok (some admin_index) := by
  simp [admin_handler, jwtDecode_encode, hrole]

/-- Witness for C2's amended theorem at a concrete expired admin token. -/
theorem c2_witness :
    ((⟨0, 604800, "alice", ["admin"]⟩ : UserRolesToken).has_role "admin" = true)
      ∧ ((⟨0, 604800, "alice", ["admin"]⟩ : UserRolesToken).is_expired 604800 = true)
      ∧ admin_handler dbEmpty (some (jwtEncode KEY ⟨0, 604800, "alice", ["admin"]⟩)) "index"
          = .ok (some admin_index) :=
  ⟨by decide, by decide,
    c2_expired_admin_token_still_served dbEmpty ⟨0, 604800, "alice", ["admin"]⟩ 604800
      (by decide) (by decide)⟩

/-- C3 counterexample: an undecodable token on an admin path does not produce
the not-found response the claim promises — the request panics instead (an
internal server error, observably different from a nonexistent page). -/
theorem c3_counterexample :
    admin_handler dbEmpty (some "not-a-jwt") "user"
      = .error "called `Result::unwrap()` on an `Err` value" :=
  rfl

/-- C3 amended: on admin paths, a missing cookie and a correctly signed token
lacking the admin role both yield the not-found response (`None`), never an
explicit authorization-denied status; but an undecodable token instead panics
the request, so that case is not masked as not-found. -/
theorem c3_not_found_masking (db : Db) (path : String) (t : UserRolesToken)
    (hrole : t.has_role "admin" = false) :
    admin_handler db none path = .ok none
      ∧ admin_handler db (some (jwtEncode KEY t)) path = .ok none := by
  refine ⟨rfl, ?_⟩
  simp [admin_handler, jwtDecode_encode, hrole]

/-- Witness for C3's amended theorem at a concrete non-admin token. -/
theorem c3_witness :
    ((⟨0, 604800, "bob", ["user"]⟩ : UserRolesToken).has_role "admin" = false)
      ∧ (admin_handler dbEmpty none "index" = .ok none
          ∧ admin_handler dbEmpty (some (jwtEncode KEY ⟨0, 604800, "bob", ["user"]⟩)) "index"
              = .ok none) :=
  ⟨by decide, c3_not_found_masking dbEmpty "index" ⟨0, 604800, "bob", ["user"]⟩ (by decide)⟩

/-- C4 counterexample: the two failure paths are not indistinguishable for
every stored user — a stored user whose hash is a malformed encoding makes
login panic, while the unknown-user path returns the generic redirect. -/
theorem c4_counterexample :
    login dbSample "nobody" "pw" 0 = .ok ("/login", none)
      ∧ login dbSample "eve" "pw" 0 = .error "Failed to read password hash" :=
  ⟨rfl, rfl⟩

/-- C4 amended: for every unknown username and every stored user whose hash is
a well-formed encoding but whose password is wrong, login returns the identical
generic outcome (redirect to /login, no cookie set) — no enumeration oracle on
those paths; a stored user with a malformed hash instead panics. -/
theorem c4_failure_paths_indistinguishable (db : Db) (u₁ p₁ u₂ p₂ : String)
    (now₁ now₂ : Int) (user : User) (h : String)
    (h1 : db u₁ = none) (h2 : db u₂ = some user)
    (h3 : encodedFromU8 user.pw_hash = some h) (h4 : encodedVerify h p₂ = false) :
    login db u₁ p₁ now₁ = .ok ("/login", none)
      ∧ login db u₂ p₂ now₂ = .ok ("/login", none) := by
  constructor
  · simp [login, h1]
  · simp [login, h2, h3, h4]

/-- Witness for C4's amended theorem: unknown user "nobody" and stored user
"alice" with a wrong password produce the same outcome. -/
theorem c4_witness :
    dbSample "nobody" = none ∧ dbSample "alice" = some userAlice
      ∧ encodedFromU8 userAlice.pw_hash = some "correct"
      ∧ encodedVerify "correct" "wrong" = false
      ∧ (login dbSample "nobody" "x" 0 = .ok ("/login", none)
          ∧ login dbSample "alice" "wrong" 0 = .ok ("/login", none)) :=
  ⟨rfl, rfl, rfl, rfl,
    c4_failure_paths_indistinguishable dbSample "nobody" "x" "alice" "wrong" 0 0
      userAlice "correct" rfl rfl rfl rfl⟩

/-- C5 counterexample: a stored hash that is not a well-formed encoding does
not fail as an ordinary verification failure — login panics on it
(`expect("Failed to read password hash")`) instead of returning the generic
invalid-credentials outcome. -/
theorem c5_counterexample :
    login (fun u => if u = "mallory" then some ⟨"mallory", "plainhash", []⟩ else none)
      "mallory" "pw" 0 = .error "Failed to read password hash" :=
  rfl

/-- C5 amended: for every stored user whose hash fails to parse as an encoded
hash, login panics with "Failed to read password hash" for every candidate
password, rather than treating it as a verification failure. -/
theorem c5_malformed_hash_panics (db : Db) (u p : String) (now : Int) (user : User)
    (h1 : db u = some user) (h2 : encodedFromU8 user.pw_hash = none) :
    login db u p now = .error "Failed to read password hash" := by
  simp [login, h1, h2]

/-- Witness for C5's amended theorem at the stored user with malformed hash. -/
theorem c5_witness :
    dbSample "eve" = some userEve ∧ encodedFromU8 userEve.pw_hash = none
      ∧ login dbSample "eve" "anything" 0 = .error "Failed to read password hash" :=
  ⟨rfl, rfl, c5_malformed_hash_panics dbSample "eve" "anything" 0 userEve rfl rfl⟩

/-- C6 counterexample: a store-lookup failure in the admin user view crashes
the request — with an authorized admin token but a store where the lookup
fails, the handler panics instead of resolving like a credential failure. -/
theorem c6_counterexample :
    admin_handler dbEmpty (some (jwt_generate 0 "carol" ["admin"])) "user"
      = .error ("Failed to retrieve " ++ "carol") := by
  show admin_handler dbEmpty (some (jwtEncode KEY (jwt_payload 0 "carol" ["admin"]))) "user"
    = _
  simp [admin_handler, jwtDecode_encode, UserRolesToken.has_role, jwt_payload,
    display_user, dbEmpty, Except.map]

/-- C6 amended: a store-lookup failure during login resolves to the same
generic redirect as a wrong password and does not crash; but in the admin user
view (display_user) a store-lookup failure panics the request. -/
theorem c6_lookup_failure_behavior :
    (∀ (db : Db) (u p : String) (now : Int), db u = none →
        login db u p now = .ok ("/login", none))
      ∧ (∀ (db : Db) (u : String), db u = none →
          display_user db u = .error ("Failed to retrieve " ++ u)) := by
  constructor
  · intro db u p now h
    simp [login, h]
  · intro db u h
    simp [display_user, h]

/-- Witness for C6's amended theorem on the empty store. -/
theorem c6_witness :
    login dbEmpty "dave" "pw" 0 = .ok ("/login", none)
      ∧ display_user dbEmpty "dave" = .error ("Failed to retrieve " ++ "dave") :=
  ⟨c6_lookup_failure_behavior.1 dbEmpty "dave" "pw" 0 rfl,
    c6_lookup_failure_behavior.2 dbEmpty "dave" rfl⟩

/-- C7: is_expired is true exactly when the current time is at least the
expiry time (exclusive upper bound on validity); for a token minted at any
time, the boundary instant mint + 604800 counts as expired and mint + 604799
does not. -/
theorem c7_is_expired_boundary (t : UserRolesToken) (now mint : Int)
    (user : String) (roles : List String) :
    (t.is_expired now = true ↔ t.exp ≤ now)
      ∧ (jwt_payload mint user roles).is_expired (mint + 604800) = true
      ∧ (jwt_payload mint user roles).is_expired (mint + 604799) = false := by
  refine ⟨?_, ?_, ?_⟩ <;>
    simp [UserRolesToken.is_expired, jwt_payload, ONE_WEEK]

/-- C8: decoding the token produced by signing any claims (subject, roles,
mint time) with the process key recovers the claims unchanged — in particular
the subject and the role list round-trip. -/
theorem c8_encode_decode_roundtrip (now : Int) (user : String) (roles : List String) :
    jwtDecode KEY (jwt_generate now user roles)
      = .ok { iat := now, exp := now + ONE_WEEK, user := user, roles := roles } :=
  jwtDecode_encode KEY (jwt_payload now user roles)

/-- C9: jwt_generate builds claims with issued_at equal to the clock reading,
expires_at equal to that reading plus the lifetime constant 604800 seconds
(ONE_WEEK = 60*60*24*7), subject and roles verbatim, and signs the serialized
claims with the process key under the fixed HS256-class algorithm
(jwtEncode KEY). -/
theorem c9_generate_builds_and_signs (now : Int) (user : String) (roles : List String) :
    ONE_WEEK = 604800
      ∧ jwt_payload now user roles
          = { iat := now, exp := now + 604800, user := user, roles := roles }
      ∧ jwt_generate now user roles = jwtEncode KEY (jwt_payload now user roles) := by
  refine ⟨by decide, ?_, rfl⟩
  simp [jwt_payload, ONE_WEEK]

/-- C10: for a correctly signed token holding the admin role, only the
sub-paths "index" and "user" are dispatched; every other sub-path yields the
not-found response even for a fully authorized admin (and "index" is indeed
served). -/
theorem c10_admin_subpaths (db : Db) (t : UserRolesToken) (path : String)
    (hrole : t.has_role "admin" = true) (h1 : path ≠ "index") (h2 : path ≠ "user") :
    admin_handler db (some (jwtEncode KEY t)) path = .ok none
      ∧ admin_handler db (some (jwtEncode KEY t)) "index" = .ok (some admin_index) := by
  constructor
  · simp only [admin_handler, jwtDecode_encode, hrole, Bool.not_true, Bool.false_eq_true,
      if_false]
  · simp [admin_handler, jwtDecode_encode, hrole]

/-- Witness for C10 at the sub-path "secret" with an authorized admin token. -/
theorem c10_witness :
    ((⟨0, 604800, "alice", ["admin"]⟩ : UserRolesToken).has_role "admin" = true)
      ∧ ("secret" : String) ≠ "index" ∧ ("secret" : String) ≠ "user"
      ∧ (admin_handler dbEmpty
            (some (jwtEncode KEY ⟨0, 604800, "alice", ["admin"]⟩)) "secret" = .ok none
          ∧ admin_handler dbEmpty
              (some (jwtEncode KEY ⟨0, 604800, "alice", ["admin"]⟩)) "index"
              = .ok (some admin_index)) :=
  ⟨by decide, by decide, by decide,
    c10_admin_subpaths dbEmpty ⟨0, 604800, "alice", ["admin"]⟩ "secret"
      (by decide) (by decide) (by decide)⟩

end RocketJwt
